import Mathlib

/-!
Verification of the `/enhance` request path of the Web-Builder backend
(`server.js`): input validation (zod schema), sanitization, prompt
construction, the provider call raced against a timeout, and the ordered
error-classification chain that turns provider failures into HTTP
responses.
-/

set_option maxRecDepth 4000

namespace WebBuilder

/-- Boolean prefix test on character lists (models JS `String.startsWith`
restricted to what the embedding needs). -/
def charListHasPrefix : List Char → List Char → Bool
  | _, [] => true
  | [], _ :: _ => false
  | a :: as, b :: bs => a == b && charListHasPrefix as bs

/-- Boolean substring test on character lists (models JS
`String.prototype.includes`). -/
def charListContains : List Char → List Char → Bool
  | [], pat => pat.isEmpty
  | a :: as, pat => charListHasPrefix (a :: as) pat || charListContains as pat

/-- Substring test on strings, as used by the error-classification
heuristics (`error.message?.includes(...)`). -/
def strContains (s pat : String) : Bool :=
  charListContains s.data pat.data

/-- Whitespace trimming on a character list: drop leading and trailing
whitespace, keep the middle. -/
def trimChars (l : List Char) : List Char :=
  ((l.dropWhile Char.isWhitespace).reverse.dropWhile Char.isWhitespace).reverse

/-- The `trim()` transform of the zod schema (JS `String.prototype.trim`). -/
def jsTrim (s : String) : String :=
  ⟨trimChars s.data⟩

/-- The request body's `input` field as the handler sees it: either not a
string (missing field, wrong type, non-object body) or a string. -/
inductive ReqInput where
  | notString
  | str (s : String)
deriving DecidableEq, Repr

/-- The zod schema `enhanceRequestSchema`:
`z.object(input: z.string().min(1).max(1000).trim())`. zod runs the
checks in declaration order, so `min(1)` and `max(1000)` are evaluated on
the untrimmed string and the `trim()` transform is applied afterwards to
the value that passes. `none` models a `ZodError`. -/
def enhanceRequestParse : ReqInput → Option String
  | .notString => none
  | .str s => if 1 ≤ s.length ∧ s.length ≤ 1000 then some (jsTrim s) else none

/-- Scanning state of the sanitizer model: ordinary text, inside a markup
tag, or inside a script element whose content must be dropped. -/
inductive SanMode where
  | text
  | tag
  | script
deriving DecidableEq, Repr

/-- Core of the sanitizer model: strip every markup tag, and for script
elements also drop their content up to the closing tag. -/
def stripMarkup : SanMode → List Char → List Char
  | _, [] => []
  | m, c :: rest =>
    match m with
    | .text =>
      if c = '<' then
        if charListHasPrefix rest "script".data then
          stripMarkup .script rest
        else
          stripMarkup .tag rest
      else
        c :: stripMarkup .text rest
    | .tag =>
      if c = '>' then stripMarkup .text rest else stripMarkup .tag rest
    | .script =>
      if charListHasPrefix (c :: rest) "</script>".data then
        stripMarkup .tag rest
      else
        stripMarkup .script rest

/-- Modelled from the spec: `DOMPurifyInstance.sanitize` comes from the
external DOMPurify library, whose code is not part of this repository.
The spec describes it as an HTML/script-stripping sanitizer, removing
markup and script-executable content, so the model removes every markup
tag together with the content of script elements and keeps the remaining
text. -/
def sanitize (s : String) : String :=
  ⟨stripMarkup .text s.data⟩

/-- The fixed instructional template `masterPrompt`; only the sanitized
idea text is a variable. -/
def masterPrompt (sanitizedInput : String) : String :=
  "\n      Act as an elite Product Development Team.\n      Analyze the following web app idea: \"" ++
  sanitizedInput ++
  "\".\n      Output the result in Markdown format exactly as requested previously.\n      ... (Keep prompts concise to save tokens) ...\n      \n      # ⚡ Vibe Coder Blueprint\n      ## 💡 Strategy & Concept\n      * **Project Name:** [Name]\n      * **Value Proposition:** [Value]\n      * **Core Features:** [Features]\n      ## 🛠 Tech Architecture\n      * **Frontend:** [Stack]\n      * **Backend:** [Stack]\n      ## 🎨 UI/UX Direction\n      * **Vibe:** [Vibe]\n      * **Color Palette:** [Colors]\n      * **Typography:** [Fonts]\n    "

/-- A provider (or `result.response.text()`) error as the catch block
inspects it: an optional numeric `status`, an optional `message`, and an
optional `stack` (the stack is only ever logged). -/
structure ProviderError where
  status : Option Nat
  message : Option String
  stack : Option String
deriving DecidableEq, Repr

/-- The test `error.message?.includes(sub)`. -/
def msgIncludes (e : ProviderError) (sub : String) : Bool :=
  match e.message with
  | some m => strContains m sub
  | none => false

/-- JS `error.message || dflt`: the fallback is used when the message is
absent or the empty string (both falsy). -/
def messageOr (e : ProviderError) (dflt : String) : String :=
  match e.message with
  | some m => if m = "" then dflt else m
  | none => dflt

/-- Condition of the timeout branch: `error.message === 'Request timeout'`. -/
def timeoutCond (e : ProviderError) : Bool :=
  e.message == some "Request timeout"

/-- Condition of the API-key branch: `error.status === 403 ||
error.message?.includes('API key') || error.message?.includes('leaked') ||
error.message?.includes('403')`. -/
def credCond (e : ProviderError) : Bool :=
  e.status == some 403 || msgIncludes e "API key" || msgIncludes e "leaked" ||
    msgIncludes e "403"

/-- Condition of the quota branch: `error.status === 429 ||
error.message?.includes('429')`. -/
def quotaCond (e : ProviderError) : Bool :=
  e.status == some 429 || msgIncludes e "429"

/-- Condition of the configuration branch: `error.status === 400 ||
error.message?.includes('model') || error.message?.includes('invalid')`. -/
def configCond (e : ProviderError) : Bool :=
  e.status == some 400 || msgIncludes e "model" || msgIncludes e "invalid"

/-- The fixed timeout body. -/
def timedOutBody : String := "⚠️ Request timed out."

/-- The fixed quota-fallback body. -/
def quotaBody : String :=
  "# ⚠️ Quota Exceeded\n\n**Gemini API** is currently busy. Please try again in 1 minute.\n\n*(This is a fallback response)*"

/-- The fixed part of the API-key error body, before the echoed message. -/
def apiKeyBodyPrefix : String :=
  "# ⚠️ API Key Error\n\nYour Gemini API key has been disabled or is invalid. Please:\n1. Generate a new API key from [Google AI Studio](https://aistudio.google.com/app/apikey)\n2. Update the `GEMINI_API_KEY` environment variable on Render\n3. Redeploy your service\n\n**Error:** "

/-- The API-key error body, echoing `error.message`. -/
def apiKeyBody (e : ProviderError) : String :=
  apiKeyBodyPrefix ++ messageOr e "API key invalid or leaked"

/-- The fixed part of the configuration error body, before the echoed
message. -/
def configBodyPrefix : String :=
  "# ⚠️ Configuration Error\n\nThere's an issue with the API configuration. Please check:\n- Model name is valid\n- API key is correct\n\n**Error:** "

/-- The configuration error body, echoing `error.message`. -/
def configBody (e : ProviderError) : String :=
  configBodyPrefix ++ messageOr e "Invalid configuration"

/-- The generic connection-error body, echoing `error.message`. -/
def genericBody (e : ProviderError) : String :=
  "# ⚠️ Error Connecting to AI\n\n**Error:** " ++ messageOr e "Unknown error" ++
    "\n\nPlease check server logs for more details."

/-- Shape of an HTTP response body on this route: an `enhanced` field or
an `error` field. -/
inductive ResponseBody where
  | enhanced (s : String)
  | error (s : String)
deriving DecidableEq, Repr

/-- The text carried by a response body, whichever field holds it. -/
def ResponseBody.text : ResponseBody → String
  | .enhanced s => s
  | .error s => s

/-- An HTTP response: status code plus JSON body. -/
structure HttpResponse where
  status : Nat
  body : ResponseBody
deriving DecidableEq, Repr

/-- The ordered error-classification chain of the catch block, applied to
a provider failure (the `ZodError` and exact-timeout branches that
precede it in the source are handled by the surrounding handler model;
the exact-timeout test is kept here as the first rule because the catch
block re-checks it before the API-key branch). -/
def classifyError (e : ProviderError) : HttpResponse :=
  if timeoutCond e then ⟨408, .enhanced timedOutBody⟩
  else if credCond e then ⟨500, .enhanced (apiKeyBody e)⟩
  else if quotaCond e then ⟨200, .enhanced quotaBody⟩
  else if configCond e then ⟨500, .enhanced (configBody e)⟩
  else ⟨500, .enhanced (genericBody e)⟩

/-- Outcome of the race `Promise.race([generatePromise, timeoutPromise])`
followed by `result.response.text()`: the provider settled first and its
text was extracted (`success`), the timer fired first (`timedOut`), or
the provider path rejected or text extraction threw (`failure`). -/
inductive ProviderOutcome where
  | success (text : String)
  | timedOut
  | failure (e : ProviderError)
deriving DecidableEq, Repr

/-- Observable effects of one `/enhance` request: the HTTP response, and
whether/what was sent to the provider and to the logger. -/
structure EnhanceTrace where
  response : HttpResponse
  providerCalled : Bool
  prompt : Option String
  loggedInput : Option String
  loggedError : Option ProviderError
deriving DecidableEq, Repr

/-- The `/enhance` handler: parse the body with the zod schema (a
`ZodError` is answered with 400 and no provider call), sanitize, log the
sanitized input, build the prompt, issue the provider call raced against
the timeout, and turn the outcome into the response. A provider failure
is logged in full and classified. -/
def runEnhance (body : ReqInput) (outcome : ProviderOutcome) : EnhanceTrace :=
  match enhanceRequestParse body with
  | none =>
    { response := ⟨400, .error "Invalid input"⟩
      providerCalled := false
      prompt := none
      loggedInput := none
      loggedError := none }
  | some input =>
    let sanitizedInput := sanitize input
    let prompt := masterPrompt sanitizedInput
    match outcome with
    | .success t =>
      { response := ⟨200, .enhanced t⟩
        providerCalled := true
        prompt := some prompt
        loggedInput := some sanitizedInput
        loggedError := none }
    | .timedOut =>
      { response := ⟨408, .enhanced timedOutBody⟩
        providerCalled := true
        prompt := some prompt
        loggedInput := some sanitizedInput
        loggedError := none }
    | .failure e =>
      { response := classifyError e
        providerCalled := true
        prompt := some prompt
        loggedInput := some sanitizedInput
        loggedError := some e }

/-- Spec-side rendering of the classification policy as an explicit
ordered priority list: each rule is a condition together with the
response it produces, and the first matching rule decides. -/
def classificationRules :
    List ((ProviderError → Bool) × (ProviderError → HttpResponse)) :=
  [ (timeoutCond, fun _ => ⟨408, .enhanced timedOutBody⟩),
    (credCond, fun e => ⟨500, .enhanced (apiKeyBody e)⟩),
    (quotaCond, fun _ => ⟨200, .enhanced quotaBody⟩),
    (configCond, fun e => ⟨500, .enhanced (configBody e)⟩) ]

/-- First-match-wins evaluation of an ordered rule list, falling back to
a default when no rule matches. -/
def firstMatch
    (rules : List ((ProviderError → Bool) × (ProviderError → HttpResponse)))
    (dflt : ProviderError → HttpResponse) (e : ProviderError) : HttpResponse :=
  match rules with
  | [] => dflt e
  | (p, r) :: rest => if p e then r e else firstMatch rest dflt e

theorem charListHasPrefix_append (a b pat : List Char)
    (h : charListHasPrefix a pat = true) :
    charListHasPrefix (a ++ b) pat = true := by
  induction a generalizing pat with
  | nil =>
    cases pat with
    | nil => simp [charListHasPrefix]
    | cons p ps => simp [charListHasPrefix] at h
  | cons x xs ih =>
    cases pat with
    | nil => simp [charListHasPrefix]
    | cons p ps =>
      simp [charListHasPrefix] at h ⊢
      exact ⟨h.1, ih ps h.2⟩

theorem charListContains_nil_pattern (l : List Char) :
    charListContains l [] = true := by
  cases l <;> simp [charListContains, charListHasPrefix, List.isEmpty]

theorem charListContains_append_left (a b pat : List Char)
    (h : charListContains a pat = true) :
    charListContains (a ++ b) pat = true := by
  induction a with
  | nil =>
    simp [charListContains, List.isEmpty_iff] at h
    subst h
    exact charListContains_nil_pattern b
  | cons x xs ih =>
    simp [charListContains] at h ⊢
    rcases h with h | h
    · exact Or.inl (charListHasPrefix_append _ _ _ h)
    · exact Or.inr (ih h)

theorem charListContains_append_right (a b pat : List Char)
    (h : charListContains b pat = true) :
    charListContains (a ++ b) pat = true := by
  induction a with
  | nil => simpa using h
  | cons x xs ih =>
    simp [charListContains]
    exact Or.inr (by simpa using ih)

theorem charListHasPrefix_self (l : List Char) :
    charListHasPrefix l l = true := by
  induction l with
  | nil => rfl
  | cons x xs ih => simp [charListHasPrefix, ih]

theorem charListContains_self (l : List Char) :
    charListContains l l = true := by
  cases l with
  | nil => rfl
  | cons x xs => simp [charListContains, charListHasPrefix_self]

theorem strContains_append_left (a b pat : String)
    (h : strContains a pat = true) : strContains (a ++ b) pat = true := by
  unfold strContains at h ⊢
  rw [String.data_append]
  exact charListContains_append_left _ _ _ h

theorem strContains_append_right (a b pat : String)
    (h : strContains b pat = true) : strContains (a ++ b) pat = true := by
  unfold strContains at h ⊢
  rw [String.data_append]
  exact charListContains_append_right _ _ _ h

theorem strContains_self (s : String) : strContains s s = true :=
  charListContains_self s.data

theorem stripMarkup_no_lt (m : SanMode) (l : List Char) :
    '<' ∈ stripMarkup m l → False := by
  induction l generalizing m with
  | nil => cases m <;> simp [stripMarkup]
  | cons c rest ih =>
    cases m with
    | text =>
      simp only [stripMarkup]
      split
      next hc =>
        split
        · exact ih _
        · exact ih _
      next hc =>
        intro hmem
        rcases List.mem_cons.mp hmem with h | h
        · exact hc h.symm
        · exact ih _ h
    | tag =>
      simp only [stripMarkup]
      split
      · exact ih _
      · exact ih _
    | script =>
      simp only [stripMarkup]
      split
      · exact ih _
      · exact ih _

theorem classifyError_body_enhanced (e : ProviderError) :
    ∃ t, (classifyError e).body = .enhanced t := by
  unfold classifyError
  repeat' split
  all_goals exact ⟨_, rfl⟩

/-- Claim C1, counterexample: the single-space input has trimmed length 0,
so the claim requires rejection with 400 and no provider call; the code
accepts it (zod checks `min(1)` and `max(1000)` before applying the
`trim()` transform), invokes the provider, and answers 200. -/
theorem reject_iff_trimmed_length_counterexample :
    (jsTrim " ").length = 0 ∧
    (runEnhance (.str " ") (.success "T")).providerCalled = true ∧
    (runEnhance (.str " ") (.success "T")).response.status = 200 := by
  decide

/-- Claim C1 (amended): a POST /enhance request is rejected with 400 and
body error "Invalid input", with the provider never invoked, if and only
if the input is not a string or its UNTRIMMED length is outside 1..1000;
trimming is applied only after the length checks, to the value that is
passed on. -/
theorem reject_iff_untrimmed_length_out_of_range
    (b : ReqInput) (o : ProviderOutcome) :
    ((runEnhance b o).response = ⟨400, .error "Invalid input"⟩ ∧
      (runEnhance b o).providerCalled = false) ↔
    (b = .notString ∨ ∃ s, b = .str s ∧ (s.length < 1 ∨ 1000 < s.length)) := by
  cases b with
  | notString => simp [runEnhance, enhanceRequestParse]
  | str s =>
    by_cases h : 1 ≤ s.length ∧ s.length ≤ 1000
    · obtain ⟨h1, h2⟩ := h
      have hp : enhanceRequestParse (.str s) = some (jsTrim s) := by
        simp [enhanceRequestParse, h1, h2]
      cases o <;> simp [runEnhance, hp] <;> omega
    · have hp : enhanceRequestParse (.str s) = none := by
        simp [enhanceRequestParse]
        omega
      simp [runEnhance, hp]
      omega

/-- Witness for the amended C1 at the concrete empty-string input, which
is rejected. -/
theorem reject_iff_untrimmed_length_witness :
    (runEnhance (.str "") (.success "T")).response = ⟨400, .error "Invalid input"⟩ :=
  ((reject_iff_untrimmed_length_out_of_range (.str "") (.success "T")).mpr
    (Or.inr ⟨"", rfl, Or.inl (by decide)⟩)).1

/-- Claim C2: whenever a validated request's provider call does not settle
within the timeout, the response is exactly 408 with the fixed timeout
body, independent of anything the provider might later do (the handler
responds immediately when the timer wins the race). -/
theorem timeout_gives_408_fixed_body
    (b : ReqInput) (v : String) (h : enhanceRequestParse b = some v) :
    (runEnhance b .timedOut).response = ⟨408, .enhanced "⚠️ Request timed out."⟩ := by
  simp [runEnhance, h, timedOutBody]

/-- Witness for C2 at the concrete input "hello". -/
theorem timeout_gives_408_fixed_body_witness :
    (runEnhance (.str "hello") .timedOut).response =
      ⟨408, .enhanced "⚠️ Request timed out."⟩ :=
  timeout_gives_408_fixed_body (.str "hello") "hello" (by decide)

/-- Claim C4: when the provider call succeeds within the timeout with text
T, the response is 200 and its enhanced field is exactly T, with no
further processing of the model's output. -/
theorem success_roundtrip
    (b : ReqInput) (v T : String) (h : enhanceRequestParse b = some v) :
    (runEnhance b (.success T)).response = ⟨200, .enhanced T⟩ := by
  simp [runEnhance, h]

/-- Witness for C4 at the concrete input "hello" and provider text
containing markup, returned untouched. -/
theorem success_roundtrip_witness :
    (runEnhance (.str "hello") (.success "# Blueprint <b>bold</b>")).response =
      ⟨200, .enhanced "# Blueprint <b>bold</b>"⟩ :=
  success_roundtrip (.str "hello") "hello" "# Blueprint <b>bold</b>" (by decide)

/-- Claim C9: the handler always produces an HTTP response: a validation
failure yields 400 with an error body, and every other outcome of every
request yields a body carrying an enhanced field; no failure escapes the
handler. -/
theorem handler_always_responds (b : ReqInput) (o : ProviderOutcome) :
    (enhanceRequestParse b = none ∧
      (runEnhance b o).response = ⟨400, .error "Invalid input"⟩) ∨
    (∃ t, (runEnhance b o).response.body = .enhanced t) := by
  cases hp : enhanceRequestParse b with
  | none => exact Or.inl ⟨rfl, by simp [runEnhance, hp]⟩
  | some v =>
    refine Or.inr ?_
    cases o with
    | success t => exact ⟨t, by simp [runEnhance, hp]⟩
    | timedOut => exact ⟨timedOutBody, by simp [runEnhance, hp]⟩
    | failure e =>
      obtain ⟨t, htt⟩ := classifyError_body_enhanced e
      exact ⟨t, by simp [runEnhance, hp, htt]⟩

/-- Witness for C9 at a concrete unclassifiable provider failure. -/
theorem handler_always_responds_witness :
    ∃ t,
      (runEnhance (.str "hello") (.failure ⟨none, none, none⟩)).response.body =
        .enhanced t := by
  rcases handler_always_responds (.str "hello") (.failure ⟨none, none, none⟩) with
    h | h
  · exact absurd h.1 (by decide)
  · exact h

/-- Claim C10: the markup-only input passes validation (untrimmed length
24 lies in 1..1000), sanitizes to the empty string, and the provider is
still invoked with the prompt built around an empty idea text — the
sanitized value is not re-validated. -/
theorem sanitized_empty_still_calls_provider :
    enhanceRequestParse (.str "<script>alert(1)</script>") =
      some "<script>alert(1)</script>" ∧
    sanitize "<script>alert(1)</script>" = "" ∧
    (runEnhance (.str "<script>alert(1)</script>") (.success "T")).providerCalled =
      true ∧
    (runEnhance (.str "<script>alert(1)</script>") (.success "T")).prompt =
      some (masterPrompt "") := by
  decide

/-- Claim C3: for every validated input, the value interpolated into the
prompt template and the value logged are both the sanitized one
(sanitization happens after validation and before either use), and the
sanitized value contains no markup at all — in particular no executable
markup tags. -/
theorem sanitize_before_prompt_and_log
    (b : ReqInput) (v : String) (o : ProviderOutcome)
    (h : enhanceRequestParse b = some v) :
    (runEnhance b o).prompt = some (masterPrompt (sanitize v)) ∧
    (runEnhance b o).loggedInput = some (sanitize v) ∧
    ('<' ∈ (sanitize v).data → False) := by
  refine ⟨?_, ?_, fun hm => stripMarkup_no_lt _ _ hm⟩ <;>
    cases o <;> simp [runEnhance, h]

/-- Witness for C3 at a concrete markup-carrying input. -/
theorem sanitize_before_prompt_and_log_witness :
    (runEnhance (.str "<b>hi</b>") (.success "T")).prompt =
      some (masterPrompt (sanitize "<b>hi</b>")) :=
  (sanitize_before_prompt_and_log (.str "<b>hi</b>") "<b>hi</b>"
    (.success "T") (by decide)).1

/-- Claim C5: when the provider failure matches the quota heuristic and no
earlier rule (timeout, credential) matched, a validated request is
answered with status 200 and the fixed quota-fallback body, which
suggests retrying in about a minute. -/
theorem quota_fallback_is_200
    (b : ReqInput) (v : String) (e : ProviderError)
    (hv : enhanceRequestParse b = some v)
    (ht : timeoutCond e = false) (hc : credCond e = false)
    (hq : quotaCond e = true) :
    (runEnhance b (.failure e)).response.status = 200 ∧
    (runEnhance b (.failure e)).response.body = .enhanced quotaBody ∧
    strContains quotaBody "try again in 1 minute" = true := by
  refine ⟨?_, ?_, by decide⟩ <;> simp [runEnhance, hv, classifyError, ht, hc, hq]

/-- Witness for C5 at a concrete 429 failure. -/
theorem quota_fallback_is_200_witness :
    (runEnhance (.str "hello") (.failure ⟨some 429, some "boom", none⟩)).response.status =
      200 :=
  (quota_fallback_is_200 (.str "hello") "hello" ⟨some 429, some "boom", none⟩
    (by decide) (by decide) (by decide) (by decide)).1

/-- Claim C6: when the provider failure matches the credential heuristic
(and its message is not the timeout marker, which precedes it), a
validated request is answered with status 500 and a body that names the
credential-rotation remedy: generating a new API key and updating the
GEMINI_API_KEY environment variable. -/
theorem credential_failure_is_500_with_rotation_guidance
    (b : ReqInput) (v : String) (e : ProviderError)
    (hv : enhanceRequestParse b = some v)
    (ht : timeoutCond e = false) (hc : credCond e = true) :
    (runEnhance b (.failure e)).response.status = 500 ∧
    strContains (runEnhance b (.failure e)).response.body.text
      "Generate a new API key" = true ∧
    strContains (runEnhance b (.failure e)).response.body.text
      "GEMINI_API_KEY" = true := by
  have hbody :
      (runEnhance b (.failure e)).response.body.text = apiKeyBody e := by
    simp [runEnhance, hv, classifyError, ht, hc, ResponseBody.text]
  refine ⟨by simp [runEnhance, hv, classifyError, ht, hc], ?_, ?_⟩ <;>
    rw [hbody, apiKeyBody] <;>
    exact strContains_append_left _ _ _ (by decide)

/-- Witness for C6 at a concrete 403 failure. -/
theorem credential_failure_witness :
    (runEnhance (.str "hello") (.failure ⟨some 403, some "key revoked", none⟩)).response.status =
      500 :=
  (credential_failure_is_500_with_rotation_guidance (.str "hello") "hello"
    ⟨some 403, some "key revoked", none⟩ (by decide) (by decide) (by decide)).1

/-- Claim C7: the error classification is exactly first-match-wins
evaluation of the ordered rule list timeout, credential, quota,
configuration, with the generic connection-error response as the default
— so an error matching several heuristics gets the earliest rule's
outcome. -/
theorem classification_is_ordered_first_match (e : ProviderError) :
    classifyError e =
      firstMatch classificationRules (fun e => ⟨500, .enhanced (genericBody e)⟩) e :=
  rfl

/-- Witness for C7 at a concrete failure matching both the credential and
quota heuristics, resolved by the earlier credential rule. -/
theorem classification_is_ordered_first_match_witness :
    classifyError ⟨some 403, some "429", none⟩ =
      firstMatch classificationRules (fun e => ⟨500, .enhanced (genericBody e)⟩)
        ⟨some 403, some "429", none⟩ :=
  classification_is_ordered_first_match ⟨some 403, some "429", none⟩

/-- Claim C8, counterexample: a 403 credential failure whose message holds
internal diagnostic text is answered by the credential branch (not the
generic one), yet the provider's message is echoed into the 500 response
body — the claim allows the echo only in the generic case. -/
theorem diagnostic_echo_counterexample :
    credCond ⟨some 403, some "SECRET-diagnostic-123", some "stack"⟩ = true ∧
    (classifyError ⟨some 403, some "SECRET-diagnostic-123", some "stack"⟩).status =
      500 ∧
    (classifyError ⟨some 403, some "SECRET-diagnostic-123", some "stack"⟩).body =
      .enhanced (apiKeyBody ⟨some 403, some "SECRET-diagnostic-123", some "stack"⟩) ∧
    strContains
      (classifyError ⟨some 403, some "SECRET-diagnostic-123", some "stack"⟩).body.text
      "SECRET-diagnostic-123" = true := by
  refine ⟨by decide, by decide, by decide, ?_⟩
  have hbody :
      (classifyError ⟨some 403, some "SECRET-diagnostic-123", some "stack"⟩).body.text =
        apiKeyBody ⟨some 403, some "SECRET-diagnostic-123", some "stack"⟩ := by
    decide
  rw [hbody, apiKeyBody]
  exact strContains_append_right _ _ _ (by decide)

/-- Claim C8 (amended): the stack trace never influences the response (it
is only logged), and the timeout and quota responses are fixed constant
bodies; but the provider's message text is echoed into the response body
in all three 500 cases — credential, configuration, and generic — not
only in the generic one. -/
theorem failure_responses_leak_only_message
    (e : ProviderError) (st : Option String) :
    classifyError { e with stack := st } = classifyError e ∧
    (timeoutCond e = true → classifyError e = ⟨408, .enhanced timedOutBody⟩) ∧
    (timeoutCond e = false → credCond e = false → quotaCond e = true →
      classifyError e = ⟨200, .enhanced quotaBody⟩) ∧
    (∀ m, e.message = some m → ¬m = "" →
      timeoutCond e = false → credCond e = true →
      strContains (classifyError e).body.text m = true) ∧
    (∀ m, e.message = some m → ¬m = "" →
      timeoutCond e = false → credCond e = false → quotaCond e = false →
      configCond e = true →
      strContains (classifyError e).body.text m = true) ∧
    (∀ m, e.message = some m → ¬m = "" →
      timeoutCond e = false → credCond e = false → quotaCond e = false →
      configCond e = false →
      strContains (classifyError e).body.text m = true) := by
  refine ⟨rfl, ?_, ?_, ?_, ?_, ?_⟩
  · intro ht; simp [classifyError, ht]
  · intro ht hc hq; simp [classifyError, ht, hc, hq]
  · intro m hm hm0 ht hc
    have : (classifyError e).body.text = apiKeyBodyPrefix ++ m := by
      simp [classifyError, ht, hc, ResponseBody.text, apiKeyBody, messageOr, hm, hm0]
    rw [this]
    exact strContains_append_right _ _ _ (strContains_self m)
  · intro m hm hm0 ht hc hq hcf
    have : (classifyError e).body.text = configBodyPrefix ++ m := by
      simp [classifyError, ht, hc, hq, hcf, ResponseBody.text, configBody,
        messageOr, hm, hm0]
    rw [this]
    exact strContains_append_right _ _ _ (strContains_self m)
  · intro m hm hm0 ht hc hq hcf
    have : (classifyError e).body.text =
        ("# ⚠️ Error Connecting to AI\n\n**Error:** " ++ m) ++
          "\n\nPlease check server logs for more details." := by
      simp [classifyError, ht, hc, hq, hcf, ResponseBody.text, genericBody,
        messageOr, hm, hm0]
    rw [this]
    exact strContains_append_left _ _ _
      (strContains_append_right _ _ _ (strContains_self m))

/-- Witness for C8 (amended): at a concrete configuration failure the
response ignores the stack and echoes the message. -/
theorem failure_responses_leak_only_message_witness :
    strContains
      (classifyError ⟨some 400, some "bad model name", some "stack"⟩).body.text
      "bad model name" = true :=
  ((failure_responses_leak_only_message
      ⟨some 400, some "bad model name", some "stack"⟩ none).2.2.2.2.1)
    "bad model name" rfl (by decide) (by decide) (by decide) (by decide) (by decide)

end WebBuilder
